import Mathlib

/-!
Shallow embedding of the RunningHub AI Client batch job execution engine
(`src/components/StepRunning.tsx`, the batch variant; plus the legacy
`StepRunning` component, the `BatchSettingsModal` pending-file recording and
the `App` retry wiring), together with proofs of the specified properties.

JavaScript execution is single threaded and cooperative: a synchronous block
of statements with no `await` inside runs atomically.  Every function below is
translated from one concrete block of the source; machine numbers are modelled
as `Nat`, `Int` or `Rat`, fallible remote calls as `Except`/`Option` oracles,
and each remote poll response as an explicit value consumed by the loop.
-/

/-! ## JavaScript string and number helpers -/

/-- Whether the character list `sub` occurs as a prefix of `l`. -/
def hasPrefixChars : List Char → List Char → Bool
  | [], _ => true
  | _ :: _, [] => false
  | a :: as, b :: bs => a = b && hasPrefixChars as bs

/-- Whether the character list `sub` occurs contiguously inside `l`. -/
def hasInfixChars (sub : List Char) : List Char → Bool
  | [] => hasPrefixChars sub []
  | b :: bs => hasPrefixChars sub (b :: bs) || hasInfixChars sub bs

/-- JavaScript `s.includes(sub)`: substring containment test. -/
def strIncludes (s sub : String) : Bool :=
  hasInfixChars sub.data s.data

/-- JavaScript `a || b` on an optional string: the empty string is falsy, so
`some ""` and `none` both fall through to `b`. -/
def jsOrStr (a : Option String) (b : String) : String :=
  match a with
  | some s => if s = "" then b else s
  | none => b

/-- JavaScript `a || b || c` over three strings where `a` and `b` may be
empty (falsy). -/
def jsOr3 (a b c : String) : String :=
  if a = "" then (if b = "" then c else b) else a

/-- JavaScript `parseInt` restricted to the shapes occurring in the source:
a leading run of decimal digits parses to a number, anything else (for
example a key starting with the letters `task-`) yields `NaN`, modelled as
`none`.  The source only ever compares the result with `===` against a
task index, and `NaN === i` is false for every `i`. -/
def jsParseIntNat (s : String) : Option Nat :=
  let ds := s.data.takeWhile Char.isDigit
  if ds.isEmpty then none
  else some (ds.foldl (fun acc c => acc * 10 + (c.toNat - 48)) 0)

/-! ## Data model (from `src/types` and the engine props) -/

/-- One field assignment of a job specification (`NodeInfo` in `src/types`). -/
structure NodeInfo where
  nodeId : String
  nodeName : String
  fieldName : String
  fieldValue : String
  fieldType : String
  deriving DecidableEq, Repr

/-- One produced output file (`TaskOutput` in `src/types`). -/
structure TaskOutput where
  fileUrl : String
  fileType : Option String
  deriving DecidableEq, Repr

/-- A local file pending upload; only its name is observable to the engine. -/
structure FileRef where
  name : String
  deriving DecidableEq, Repr

/-! ## The job queue (`getNextTaskIndex`, `src/unnamed/part_004` lines 162-200) -/

/-- The shared mutable queue state: `let nextTaskIndex = 0` and
`const taskLock = { locked: false }`. -/
structure QueueState where
  locked : Bool
  nextTaskIndex : Nat
  deriving DecidableEq, Repr

/-- `getNextTaskIndex` from the source, one atomic call (the function body is
synchronous JavaScript, so a call runs without interleaving):

```js
const getNextTaskIndex = (): number | null => {
  if (taskLock.locked) return null;
  taskLock.locked = true;
  const idx = nextTaskIndex < totalTasks ? nextTaskIndex++ : null;
  taskLock.locked = false;
  return idx;
};
```

The lock is set and cleared inside the same synchronous block, so the
outgoing state always has `locked = false`. -/
def getNextTaskIndex (totalTasks : Nat) (s : QueueState) : Option Nat × QueueState :=
  if s.locked then (none, s)
  else
    if s.nextTaskIndex < totalTasks then
      (some s.nextTaskIndex, { locked := false, nextTaskIndex := s.nextTaskIndex + 1 })
    else
      (none, { locked := false, nextTaskIndex := s.nextTaskIndex })

/-- A concurrent run of take-next calls: `sched` lists, in the order the
single threaded event loop serialises them, which worker performs each call.
The trace records, per call, the calling worker and the handed-out index. -/
def runQueueCalls (totalTasks : Nat) : List Nat → QueueState → List (Nat × Option Nat)
  | [], _ => []
  | w :: ws, s =>
    let pr := getNextTaskIndex totalTasks s
    (w, pr.1) :: runQueueCalls totalTasks ws pr.2

/-- The initial queue state of every batch run. -/
def initialQueueState : QueueState := { locked := false, nextTaskIndex := 0 }

theorem getNextTaskIndex_unlocked (N n : Nat) :
    getNextTaskIndex N { locked := false, nextTaskIndex := n } =
      (if n < N then some n else none,
       { locked := false, nextTaskIndex := if n < N then n + 1 else n }) := by
  by_cases h : n < N <;> simp [getNextTaskIndex, h]

theorem runQueueCalls_length (N : Nat) (ws : List Nat) (s : QueueState) :
    (runQueueCalls N ws s).length = ws.length := by
  induction ws generalizing s with
  | nil => rfl
  | cons w ws ih => simp [runQueueCalls, ih]

theorem runQueueCalls_getD (N : Nat) (ws : List Nat) :
    ∀ (n t : Nat), t < ws.length →
      (runQueueCalls N ws { locked := false, nextTaskIndex := n }).getD t (0, none) =
        (ws.getD t 0, if n + t < N then some (n + t) else none) := by
  induction ws with
  | nil => intro n t ht; simp at ht
  | cons w ws ih =>
    intro n t ht
    match t with
    | 0 =>
      by_cases h : n < N <;>
        simp [runQueueCalls, getNextTaskIndex_unlocked, h]
    | Nat.succ t =>
      have hlt : t < ws.length := by simpa using Nat.lt_of_succ_lt_succ ht
      simp only [runQueueCalls, getNextTaskIndex_unlocked]
      by_cases h : n < N
      · simp only [h, if_true, List.getD_cons_succ]
        rw [ih (n + 1) t hlt]
        have : n + 1 + t = n + (t + 1) := by omega
        rw [this]
      · simp only [h, if_false, List.getD_cons_succ]
        rw [ih n t hlt]
        have h1 : ¬ n + t < N := by omega
        have h2 : ¬ n + (t + 1) < N := by omega
        simp [h1, h2]

/-- C1: for a batch of `N` jobs run by a credential pool with total
concurrency `C ≥ 1`, along any serialisation `sched` of the workers
take-next calls that contains at least `N` calls (a worker only stops
calling once it has observed `none`): the `t`-th call hands out index `t`
while indices remain and `none` afterwards; every index in `[0, N)` is
handed out at exactly one call, hence to exactly one worker; hand-outs are
strictly ascending; and a call returns `none` only when every index has
already been handed out at an earlier call. -/
theorem batch_queue_exactly_once (N C : Nat) (hC : 0 < C) (sched : List Nat)
    (hsched : ∀ w ∈ sched, w < C) (hlen : N ≤ sched.length) :
    (∀ t, t < sched.length →
      ((runQueueCalls N sched initialQueueState).getD t (0, none)).2 =
        if t < N then some t else none) ∧
    (∀ i, i < N → ∃! t, t < sched.length ∧
      ((runQueueCalls N sched initialQueueState).getD t (0, none)).2 = some i) ∧
    (∀ t₁ t₂ i₁ i₂, t₁ < t₂ → t₂ < sched.length →
      ((runQueueCalls N sched initialQueueState).getD t₁ (0, none)).2 = some i₁ →
      ((runQueueCalls N sched initialQueueState).getD t₂ (0, none)).2 = some i₂ →
      i₁ < i₂) ∧
    (∀ t, t < sched.length →
      ((runQueueCalls N sched initialQueueState).getD t (0, none)).2 = none →
      ∀ i, i < N → ∃ t', t' < t ∧
        ((runQueueCalls N sched initialQueueState).getD t' (0, none)).2 = some i) := by
  have key : ∀ t, t < sched.length →
      ((runQueueCalls N sched initialQueueState).getD t (0, none)).2 =
        if t < N then some t else none := by
    intro t ht
    have := runQueueCalls_getD N sched 0 t ht
    simp only [initialQueueState, this, Nat.zero_add]
  refine ⟨key, ?_, ?_, ?_⟩
  · intro i hi
    refine ⟨i, ⟨Nat.lt_of_lt_of_le hi hlen, ?_⟩, ?_⟩
    · rw [key i (Nat.lt_of_lt_of_le hi hlen)]; simp [hi]
    · intro y hy
      rw [key y hy.1] at hy
      by_cases h : y < N
      · have := hy.2; simp [h] at this; omega
      · have := hy.2; simp [h] at this
  · intro t₁ t₂ i₁ i₂ h12 h2 e1 e2
    rw [key t₁ (Nat.lt_trans h12 h2)] at e1
    rw [key t₂ h2] at e2
    by_cases b1 : t₁ < N
    · by_cases b2 : t₂ < N
      · simp [b1] at e1; simp [b2] at e2; omega
      · simp [b2] at e2
    · simp [b1] at e1
  · intro t ht hnone i hi
    rw [key t ht] at hnone
    by_cases b : t < N
    · simp [b] at hnone
    · refine ⟨i, by omega, ?_⟩
      have hit : i < sched.length := Nat.lt_of_lt_of_le hi hlen
      rw [key i hit]; simp [hi]

/-- Witness: concrete instance of C1 with 3 jobs, 2 workers, 5 calls. -/
theorem batch_queue_exactly_once_witness :
    ((runQueueCalls 3 [0, 1, 0, 1, 0] initialQueueState).getD 1 (0, none)).2 =
      if 1 < 3 then some 1 else none :=
  (batch_queue_exactly_once 3 2 (by decide) [0, 1, 0, 1, 0]
    (by decide) (by decide)).1 1 (by decide)

/-! ## Shared counters and `checkAllDone` (`src/unnamed/part_004` lines 162-256, 330-421)

The engine keeps `let completedCount = 0` and `let failedCountLocal = 0` and,
after each job reaches a terminal state, calls `checkAllDone`, which emits the
batch summary (eventually invoking `onBatchComplete`) whenever
`completedCount + failedCountLocal >= totalTasks`.  There is no emitted-flag:
every `checkAllDone` call made while the condition holds emits.

A run is modelled as a serialised trace of the two primitive synchronous
steps: `increment` (the `completedCount++` at line 337 or the
`failedCountLocal++` at line 408) and `checkDone` (the `checkAllDone()` call
at line 403 or 420).  In the failure path, and in the success path with
auto-save disabled, the increment and its `checkAllDone` call run inside one
synchronous block, so they are adjacent in the trace; in the success path
with auto-save enabled two `await`s (lines 344 and 363) separate them, so
steps of other workers can interleave. -/

/-- One primitive synchronous step touching the shared counters. -/
inductive BatchOp where
  | increment (success : Bool)
  | checkDone
  deriving DecidableEq, Repr

/-- The shared counters plus the number of summary emissions so far. -/
structure BatchRunState where
  completedCount : Nat
  failedCountLocal : Nat
  emissions : Nat
  deriving DecidableEq, Repr

/-- Semantics of one primitive step; `checkDone` is the body of
`checkAllDone`: it emits iff `completedCount + failedCountLocal >= totalTasks`. -/
def stepBatchOp (totalTasks : Nat) (s : BatchRunState) : BatchOp → BatchRunState
  | .increment true => { s with completedCount := s.completedCount + 1 }
  | .increment false => { s with failedCountLocal := s.failedCountLocal + 1 }
  | .checkDone =>
    if totalTasks ≤ s.completedCount + s.failedCountLocal then
      { s with emissions := s.emissions + 1 }
    else s

/-- Run a whole trace of primitive steps from the initial state. -/
def runBatchOps (totalTasks : Nat) (ops : List BatchOp) : BatchRunState :=
  ops.foldl (stepBatchOp totalTasks) ⟨0, 0, 0⟩

/-- The trace of a run in which every terminal event is atomic: each
increment is immediately followed by its own `checkAllDone` call (this is
exactly the shape of every failure path and of success paths with auto-save
disabled). -/
def atomicEvents (outcomes : List Bool) : List BatchOp :=
  (outcomes.map (fun b => [BatchOp.increment b, BatchOp.checkDone])).join

theorem atomicEvents_cons (b : Bool) (rest : List Bool) :
    atomicEvents (b :: rest) =
      BatchOp.increment b :: BatchOp.checkDone :: atomicEvents rest := by
  simp [atomicEvents]

theorem runBatchOps_atomic_general (totalTasks : Nat) :
    ∀ (outcomes : List Bool) (c f e : Nat),
      c + f + outcomes.length ≤ totalTasks →
      List.foldl (stepBatchOp totalTasks) ⟨c, f, e⟩ (atomicEvents outcomes) =
        ⟨c + outcomes.count true, f + outcomes.count false,
         e + (if c + f + outcomes.length = totalTasks ∧ outcomes.length ≠ 0
              then 1 else 0)⟩ := by
  intro outcomes
  induction outcomes with
  | nil => intro c f e h; simp [atomicEvents]
  | cons b rest ih =>
    intro c f e h
    rw [atomicEvents_cons]
    simp only [List.foldl_cons]
    cases b
    · -- failure event: failedCountLocal++ then checkAllDone
      have h1 : stepBatchOp totalTasks ⟨c, f, e⟩ (BatchOp.increment false) =
          ⟨c, f + 1, e⟩ := rfl
      rw [h1]
      by_cases hfire : totalTasks ≤ c + (f + 1)
      · have hrest0 : rest = [] := by
          have hlen : rest.length = 0 := by simp at h; omega
          exact List.length_eq_zero.mp hlen
        subst hrest0
        have h2 : stepBatchOp totalTasks ⟨c, f + 1, e⟩ BatchOp.checkDone =
            ⟨c, f + 1, e + 1⟩ := by simp [stepBatchOp, hfire]
        rw [h2]
        have heq : c + f + 1 = totalTasks := by simp at h; omega
        simp [atomicEvents, heq]
      · have h2 : stepBatchOp totalTasks ⟨c, f + 1, e⟩ BatchOp.checkDone =
            ⟨c, f + 1, e⟩ := by simp [stepBatchOp, hfire]
        rw [h2, ih c (f + 1) e (by simp at h ⊢; omega)]
        simp only [List.length_cons, List.count_cons, BatchRunState.mk.injEq]
        refine ⟨by simp, by simp; omega, ?_⟩
        split_ifs <;> omega
    · -- success event: completedCount++ then checkAllDone
      have h1 : stepBatchOp totalTasks ⟨c, f, e⟩ (BatchOp.increment true) =
          ⟨c + 1, f, e⟩ := rfl
      rw [h1]
      by_cases hfire : totalTasks ≤ c + 1 + f
      · have hrest0 : rest = [] := by
          have hlen : rest.length = 0 := by simp at h; omega
          exact List.length_eq_zero.mp hlen
        subst hrest0
        have h2 : stepBatchOp totalTasks ⟨c + 1, f, e⟩ BatchOp.checkDone =
            ⟨c + 1, f, e + 1⟩ := by simp [stepBatchOp, hfire]
        rw [h2]
        have heq : c + f + 1 = totalTasks := by simp at h; omega
        simp [atomicEvents, heq]
      · have h2 : stepBatchOp totalTasks ⟨c + 1, f, e⟩ BatchOp.checkDone =
            ⟨c + 1, f, e⟩ := by simp [stepBatchOp, hfire]
        rw [h2, ih (c + 1) f e (by simp at h ⊢; omega)]
        simp only [List.length_cons, List.count_cons, BatchRunState.mk.injEq]
        refine ⟨by simp; omega, by simp, ?_⟩
        split_ifs <;> omega

theorem count_true_add_count_false (l : List Bool) :
    l.count true + l.count false = l.length := by
  induction l with
  | nil => rfl
  | cons b t ih => cases b <;> simp [List.count_cons] <;> omega

/-- C2 (amended): across any batch run with at most `totalTasks` terminal
events (the queue hands each of the `totalTasks` indices to at most one
worker, so each job reports at most once), when every terminal event is
atomic — its counter increment immediately followed by its own
`checkAllDone` call, which is the shape of every failure path and of success
paths with auto-save disabled — `completedCount + failedCountLocal` equals
the number of events after every prefix (so it grows by exactly one per
event and never exceeds `totalTasks`), at most one summary is emitted, and
exactly one summary is emitted when the events reach `totalTasks > 0`.
With auto-save enabled the increment and the check of a succeeded job are
separated by `await`s, and the separated trace can emit twice (see the
counterexample). -/
theorem batch_counters_and_summary (totalTasks : Nat) (outcomes : List Bool)
    (h : outcomes.length ≤ totalTasks) :
    (∀ k, k ≤ outcomes.length →
      (runBatchOps totalTasks (atomicEvents (outcomes.take k))).completedCount +
        (runBatchOps totalTasks (atomicEvents (outcomes.take k))).failedCountLocal
        = k) ∧
    (runBatchOps totalTasks (atomicEvents outcomes)).emissions ≤ 1 ∧
    (outcomes.length = totalTasks → 0 < totalTasks →
      (runBatchOps totalTasks (atomicEvents outcomes)).emissions = 1) := by
  have main : ∀ (l : List Bool), l.length ≤ totalTasks →
      runBatchOps totalTasks (atomicEvents l) =
        ⟨l.count true, l.count false,
         if l.length = totalTasks ∧ l.length ≠ 0 then 1 else 0⟩ := by
    intro l hl
    have := runBatchOps_atomic_general totalTasks l 0 0 0 (by omega)
    simpa [runBatchOps] using this
  refine ⟨?_, ?_, ?_⟩
  · intro k hk
    have hlt : (outcomes.take k).length ≤ totalTasks := by
      rw [List.length_take]; omega
    rw [main _ hlt]
    have := count_true_add_count_false (outcomes.take k)
    simp only []
    rw [this, List.length_take]
    omega
  · rw [main _ h]
    split_ifs <;> simp
  · intro hlen hpos
    rw [main _ h]
    have : outcomes.length ≠ 0 := by omega
    simp [hlen, this]
    omega

/-- Witness: concrete instance of the amended C2 with two jobs, one success
and one failure, reported atomically: exactly one summary emission. -/
theorem batch_counters_and_summary_witness :
    (runBatchOps 2 (atomicEvents [true, false])).emissions = 1 :=
  (batch_counters_and_summary 2 [true, false] (by decide)).2.2 (by decide) (by decide)

/-- C2 counterexample: the engine has no emitted-once guard, and in the
success path with auto-save enabled two `await`s (`src/unnamed/part_004`
lines 344 and 363) separate `completedCount++` (line 337) from the
`checkAllDone()` call (line 403).  With two jobs and two workers whose
saves overlap, the serialised trace is increment, increment, check, check —
and both `checkAllDone` calls observe `completed + failed = total = 2`, so
`onBatchComplete` is invoked twice, not exactly once. -/
theorem batch_summary_twice_counterexample :
    runBatchOps 2 [BatchOp.increment true, BatchOp.increment true,
        BatchOp.checkDone, BatchOp.checkDone] =
      { completedCount := 2, failedCountLocal := 0, emissions := 2 } := by
  decide

/-! ## Submit responses and `parseNodeErrors` (`src/unnamed/part_004` lines 98-145, 305-325)

`submitTask` resolves with `{ taskId, promptTips? }`; `promptTips`, when a
non-empty string, is fed to `JSON.parse` and its `node_errors` object is
classified by `parseNodeErrors`.  JSON values are modelled structurally;
`JSON.parse` and `JSON.stringify` are external library calls and enter as
oracles. -/

/-- One entry of a `node_errors` value: the fields the classifier reads
(`err.details`, `err.message`, `err.type`). -/
structure ErrEntry where
  details : Option String
  message : Option String
  errType : Option String
  deriving DecidableEq, Repr

/-- One node error object: `nodeError.errors`, `nodeError.class_type`,
`nodeError.node_name`, plus the fields read when the object itself is used
as the single entry (`errors = nodeError.errors || [nodeError]`). -/
structure NodeError where
  errors : Option (List ErrEntry)
  class_type : Option String
  node_name : Option String
  selfEntry : ErrEntry
  deriving DecidableEq, Repr

/-- A value of the `node_errors` record; the classifier skips entries whose
value is not an object (`typeof nodeError === 'object'`). -/
inductive NodeErrorVal where
  | objVal (ne : NodeError)
  | nonObj
  deriving DecidableEq, Repr

/-- `const errors = nodeError.errors || [nodeError]` — note that an empty
array is truthy in JavaScript, so `some []` stays empty. -/
def effErrors (ne : NodeError) : List ErrEntry :=
  match ne.errors with
  | some l => l
  | none => [ne.selfEntry]

/-- `const details = err.details || err.message || ''`. -/
def errDetails (e : ErrEntry) : String :=
  jsOrStr e.details (jsOrStr e.message "")

/-- The substring tests of the third-party-balance branch. -/
def balanceHit (details : String) : Bool :=
  strIncludes details "API balance is insufficient" ||
  strIncludes details "balance is insufficient" ||
  strIncludes details "please recharge"

/-- The substring tests of the invalid-API-key branch. -/
def apiKeyHit (details : String) : Bool :=
  strIncludes details "Invalid API" || strIncludes details "API key"

/-- Classification of a single error entry inside `parseNodeErrors`: the
three pattern branches, in source order, returning the `{ message, tip }`
pair, or `none` when no branch matches. -/
def classifyErrEntry (nodeId : String) (ne : NodeError) (e : ErrEntry) :
    Option (String × String) :=
  let details := errDetails e
  let className := jsOrStr ne.class_type ""
  let nodeName := jsOrStr ne.node_name ""
  if balanceHit details then
    some ("第三方 API 余额不足",
      "当前工作流 / AI 应用涉及第三方 API 调用，采用按次计费模式。\n由于您的钱包余额不足，请先前往 RunningHub 官网完成充值后再继续使用。\n\n涉及节点: "
        ++ jsOr3 nodeName className nodeId)
  else if apiKeyHit details then
    some ("第三方 API 密钥无效",
      "节点 " ++ (if nodeName = "" then nodeId else nodeName)
        ++ " 的 API 密钥配置有误，请检查密钥是否正确。")
  else if e.errType = some "custom_validation_failed" then
    some ("节点参数验证失败",
      "节点 " ++ (if nodeName = "" then nodeId else nodeName)
        ++ " 的参数验证未通过。\n详情: " ++ details)
  else none

/-- Inner loop of `parseNodeErrors`: first matching entry of one node error. -/
def firstHitIn (nodeId : String) (ne : NodeError) :
    List ErrEntry → Option (String × String)
  | [] => none
  | e :: es =>
    match classifyErrEntry nodeId ne e with
    | some r => some r
    | none => firstHitIn nodeId ne es

/-- Outer loop of `parseNodeErrors` over `Object.entries(nodeErrors)`. -/
def firstHit : List (String × NodeErrorVal) → Option (String × String)
  | [] => none
  | (nodeId, v) :: rest =>
    match v with
    | .nonObj => firstHit rest
    | .objVal ne =>
      match firstHitIn nodeId ne (effErrors ne) with
      | some r => some r
      | none => firstHit rest

/-- `parseNodeErrors` from the source: returns the friendly
`{ message, tip }` of the first matching pattern, or the default
`节点错误` with the stringified payload. -/
def parseNodeErrors (stringify : List (String × NodeErrorVal) → String)
    (nodeErrors : List (String × NodeErrorVal)) : String × String :=
  match firstHit nodeErrors with
  | some r => r
  | none => ("节点错误", stringify nodeErrors)

/-- The parsed shape of the `promptTips` JSON payload. -/
structure PromptTips where
  node_errors : Option (List (String × NodeErrorVal))
  deriving DecidableEq, Repr

/-- `submitTask` resolution value (`SubmitTaskData` in `src/types`). -/
structure SubmitResult where
  taskId : String
  promptTips : Option String
  deriving DecidableEq, Repr

/-- The immediate-node-error check after a successful batch submit
(`src/unnamed/part_004` lines 314-325):

```js
if (submitRes.promptTips) {
  try {
    const promptTips: PromptTips = JSON.parse(submitRes.promptTips);
    if (promptTips.node_errors && Object.keys(promptTips.node_errors).length > 0) {
      const { message } = parseNodeErrors(promptTips.node_errors);
      throw new Error(message);
    }
  } catch (e: any) {
    if (e.message !== 'Unexpected') throw e;
  }
}
```

Returns `some m` when the job is failed immediately with message `m`
(before any poll), `none` when execution proceeds to the poll loop.  The
`catch` re-throws every error except one whose message is exactly the
string `Unexpected`; a `JSON.parse` failure surfaces as `Except.error`
with the parser message. -/
def submitTipsCheck (stringify : List (String × NodeErrorVal) → String)
    (parseTips : String → Except String PromptTips)
    (promptTips : Option String) : Option String :=
  match promptTips with
  | none => none
  | some s =>
    if s = "" then none
    else
      let thrown : Option String :=
        match parseTips s with
        | .error m => some m
        | .ok tips =>
          match tips.node_errors with
          | none => none
          | some m =>
            if m.isEmpty then none
            else some (parseNodeErrors stringify m).1
      match thrown with
      | some m => if m = "Unexpected" then none else some m
      | none => none

/-! ## The batch poll loop (`src/unnamed/part_004` lines 327-400)

`queryTaskOutputs` resolves with `{ code, msg, data }` or rejects with an
exception.  `data` is an output array on success and an object carrying
`failedReason` on some failures.  The loop classifies each response; any
error thrown inside the `try` (both a rejected network call and the
classification `throw`s) reaches the inner `catch`, which re-throws — ending
the job — exactly when the message is non-empty and does not contain the
substring `fetch`, and otherwise logs and retries the same poll after the
same 3000 ms pause used for the still-running codes. -/

/-- `failedReason` of an error payload. -/
structure FailedReason where
  node_name : Option String
  exception_message : Option String
  deriving DecidableEq, Repr

/-- The `data` field of a poll response: an output array, an error object,
or absent. -/
inductive PollDataVal where
  | outputs (l : List TaskOutput)
  | errObj (failedReason : Option FailedReason)
  | absent
  deriving DecidableEq, Repr

/-- A resolved poll response. -/
structure PollOk where
  code : Int
  msg : Option String
  data : PollDataVal
  deriving DecidableEq, Repr

/-- One observed result of a `queryTaskOutputs` call: resolution or a
rejection carrying the exception message. -/
inductive PollResponse where
  | ok (r : PollOk)
  | exn (msg : String)
  deriving DecidableEq, Repr

/-- `res.data && res.data.length > 0`: only an output array with at least
one element satisfies the success guard. -/
def dataHasOutputs (r : PollOk) : Bool :=
  match r.data with
  | .outputs l => !l.isEmpty
  | _ => false

/-- The output list of a successful response. -/
def outputsOf (r : PollOk) : List TaskOutput :=
  match r.data with
  | .outputs l => l
  | _ => []

/-- `res.data?.failedReason` — only an error object carries one. -/
def failedReasonOf (r : PollOk) : Option FailedReason :=
  match r.data with
  | .errObj fr => fr
  | _ => none

/-- Classification of one resolved response by the batch loop body. -/
inductive PollStep where
  | success (outputs : List TaskOutput)
  | wait
  | thrown (msg : String)
  deriving DecidableEq, Repr

/-- The if/else chain of the batch poll loop body, in source order:
code 0 with a non-empty output array succeeds; 804 and 813 wait and poll
again; 805 throws the failure reason; every other code throws
`failedReason.exception_message`, falling back to `res.msg`, falling back
to the generic message with the code. -/
def classifyOk (r : PollOk) : PollStep :=
  if r.code = 0 ∧ dataHasOutputs r then .success (outputsOf r)
  else if r.code = 804 ∨ r.code = 813 then .wait
  else if r.code = 805 then
    .thrown (match failedReasonOf r with
      | some reason =>
          jsOrStr reason.node_name "Node" ++ ": " ++
            jsOrStr reason.exception_message "Error"
      | none => jsOrStr r.msg "任务执行失败")
  else
    .thrown
      (match failedReasonOf r with
        | some reason =>
          (match reason.exception_message with
            | some em =>
              if em = "" then jsOrStr r.msg ("任务失败 (code: " ++ toString r.code ++ ")")
              else em
            | none => jsOrStr r.msg ("任务失败 (code: " ++ toString r.code ++ ")"))
        | none => jsOrStr r.msg ("任务失败 (code: " ++ toString r.code ++ ")"))

/-- The inner `catch` decision: a thrown error whose message is non-empty
and free of the substring `fetch` is re-thrown (terminal for the job);
otherwise the poll is retried.  `err.message && !err.message.includes('fetch')`. -/
def rethrows (m : String) : Bool :=
  !(m = "") && !(strIncludes m "fetch")

/-- Whether the loop consumes this response and keeps polling. -/
def continuesPolling : PollResponse → Bool
  | .exn m => !(rethrows m)
  | .ok o =>
    match classifyOk o with
    | .success _ => false
    | .wait => true
    | .thrown m => !(rethrows m)

/-- The delay before the next poll, both for still-running codes and for
retried transient errors: `setTimeout(resolve, 3000)`. -/
def pollRetryDelayMs : Nat := 3000

/-- Result kind of a finite observation of the batch poll loop. -/
inductive PollCore where
  | succeeded (outputs : List TaskOutput)
  | failedPoll (msg : String)
  | stillPolling
  deriving DecidableEq, Repr

/-- The batch poll loop over the successive observed responses: returns the
terminal classification (if any), the number of `queryTaskOutputs` calls
made, and the list of pauses taken.  Exhausting the list without a terminal
classification models a loop that is still polling (or was stopped by
cancellation, which ends the loop without any terminal outcome). -/
def pollLoopGo : List PollResponse → PollCore × Nat × List Nat
  | [] => (.stillPolling, 0, [])
  | r :: rs =>
    match r with
    | .exn m =>
      if rethrows m then (.failedPoll m, 1, [])
      else
        let (core, k, ds) := pollLoopGo rs
        (core, k + 1, pollRetryDelayMs :: ds)
    | .ok o =>
      match classifyOk o with
      | .success outs => (.succeeded outs, 1, [])
      | .wait =>
        let (core, k, ds) := pollLoopGo rs
        (core, k + 1, pollRetryDelayMs :: ds)
      | .thrown m =>
        if rethrows m then (.failedPoll m, 1, [])
        else
          let (core, k, ds) := pollLoopGo rs
          (core, k + 1, pollRetryDelayMs :: ds)

/-! ## One worker task (`runWorker` body, `src/unnamed/part_004` lines 264-426)

For a claimed `taskIndex` the worker: filters the shared `pendingFiles` map
for entries whose key splits as `batchIdx|nodeId|fieldName` with
`parseInt(batchIdx) === taskIndex`; uploads each matched file in order,
substituting the returned remote `fileName` into the matching node of a
deep copy of the row; then submits; then runs the immediate-node-error
check; then polls.  Any error thrown along the way lands in the outer
`catch`, which counts the job as failed with the error message. -/

/-- Replace the `fieldValue` of the node at position `i`. -/
def updateFieldAt : List NodeInfo → Nat → String → List NodeInfo
  | [], _, _ => []
  | n :: ns, 0, v => { n with fieldValue := v } :: ns
  | n :: ns, Nat.succ i, v => n :: updateFieldAt ns i v

/-- `nodesToSubmit.findIndex(n => String(n.nodeId) === String(nodeId) &&
(n.fieldName || '') === fieldName)`. -/
def findNodeIdx (nodes : List NodeInfo) (nodeId fieldName : String) : Option Nat :=
  nodes.findIdx? (fun n => n.nodeId = nodeId ∧ n.fieldName = fieldName)

/-- Splitting a character list at every occurrence of `sep`, keeping empty
segments — the semantics of the JavaScript `key.split('|')`. -/
def splitOnChar (sep : Char) : List Char → List (List Char)
  | [] => [[]]
  | c :: cs =>
    if c = sep then [] :: splitOnChar sep cs
    else
      match splitOnChar sep cs with
      | [] => [[c]]
      | w :: ws => (c :: w) :: ws

/-- JavaScript `s.split(sep)` for a single-character separator. -/
def jsSplit (s : String) (sep : Char) : List String :=
  (splitOnChar sep s.data).map (fun l => String.mk l)

/-- The filter collecting this tasks upload work items
(`src/unnamed/part_004` lines 279-285):

```js
for (const [key, file] of Object.entries(pendingFiles)) {
  const [batchIdx, nodeId, fieldName] = key.split('|');
  if (parseInt(batchIdx) === taskIndex) {
    filesToUpload.push({ nodeId, fieldName, file });
  }
}
``` -/
def filesToUploadFor (taskIndex : Nat) (pendingFiles : List (String × FileRef)) :
    List (String × String × FileRef) :=
  pendingFiles.filterMap (fun kv =>
    let parts := jsSplit kv.1 '|'
    let batchIdx := parts.getD 0 ""
    let nodeId := parts.getD 1 ""
    let fieldName := parts.getD 2 ""
    if jsParseIntNat batchIdx = some taskIndex then some (nodeId, fieldName, kv.2)
    else none)

/-- The upload loop (lines 291-301): each file is uploaded in order; a
returned name is substituted into the matching node; the first failure
throws `文件上传失败: <name>` and aborts before submit.  The second
component of either result lists the names of the files whose upload was
attempted. -/
def uploadLoop (uploadFile : FileRef → Except String String) :
    List (String × String × FileRef) → List NodeInfo → List String →
    Except (String × List String) (List NodeInfo × List String)
  | [], nodes, ups => .ok (nodes, ups)
  | (nodeId, fieldName, file) :: rest, nodes, ups =>
    match uploadFile file with
    | .ok fileName =>
      let nodes2 :=
        match findNodeIdx nodes nodeId fieldName with
        | some i => updateFieldAt nodes i fileName
        | none => nodes
      uploadLoop uploadFile rest nodes2 (ups ++ [file.name])
    | .error _ => .error ("文件上传失败: " ++ file.name, ups ++ [file.name])

/-- The environment of one worker task: the shared pending-file entries and
the oracles for the external calls the task makes. -/
structure JobEnv where
  pendingFiles : List (String × FileRef)
  uploadFile : FileRef → Except String String
  submitResult : Except String SubmitResult
  parseTips : String → Except String PromptTips
  stringify : List (String × NodeErrorVal) → String
  pollResponses : List PollResponse

/-- Terminal classification of one worker task. -/
inductive JobResult where
  | succeeded (outputs : List TaskOutput)
  | failedJob (msg : String)
  | stillPolling
  deriving DecidableEq, Repr

/-- Observable trace of one worker task. -/
structure JobTrace where
  uploadedFiles : List String
  submitCalled : Bool
  nodesSubmitted : Option (List NodeInfo)
  pollCalls : Nat
  outcome : JobResult
  deriving DecidableEq, Repr

/-- The body of `runWorker` for one claimed task, in source order: upload
phase, submit, immediate-node-error check, poll loop.  The outer `catch`
(lines 405-421) turns any thrown message into a failed job. -/
def runWorkerTask (env : JobEnv) (taskIndex : Nat) (taskNodes : List NodeInfo) :
    JobTrace :=
  match uploadLoop env.uploadFile (filesToUploadFor taskIndex env.pendingFiles)
      taskNodes [] with
  | .error (msg, ups) =>
    { uploadedFiles := ups, submitCalled := false, nodesSubmitted := none,
      pollCalls := 0, outcome := .failedJob msg }
  | .ok (nodesToSubmit, ups) =>
    match env.submitResult with
    | .error m =>
      { uploadedFiles := ups, submitCalled := true,
        nodesSubmitted := some nodesToSubmit, pollCalls := 0,
        outcome := .failedJob m }
    | .ok sr =>
      match submitTipsCheck env.stringify env.parseTips sr.promptTips with
      | some m =>
        { uploadedFiles := ups, submitCalled := true,
          nodesSubmitted := some nodesToSubmit, pollCalls := 0,
          outcome := .failedJob m }
      | none =>
        let (core, k, _) := pollLoopGo env.pollResponses
        { uploadedFiles := ups, submitCalled := true,
          nodesSubmitted := some nodesToSubmit, pollCalls := k,
          outcome :=
            match core with
            | .succeeded outs => .succeeded outs
            | .failedPoll m => .failedJob m
            | .stillPolling => .stillPolling }

/-- The counter update the worker performs when a task reports a terminal
outcome (`completedCount++` on success, `failedCountLocal++` on failure);
a task still polling — in particular one interrupted by cancellation —
changes no counter. -/
def applyOutcome (c : BatchRunState) : JobResult → BatchRunState
  | .succeeded _ => { c with completedCount := c.completedCount + 1 }
  | .failedJob _ => { c with failedCountLocal := c.failedCountLocal + 1 }
  | .stillPolling => c

/-! ## Balance accounting (`src/unnamed/part_004` lines 166-190, 223-254, 567-598)

Balances are the `parseFloat` of the `remainCoins` decimal string; they are
modelled as rationals.  `initialCoinsMap` collects starting balances per
API key; on completion `checkAllDone` queries a final balance per key and
accumulates `Math.max(0, start - final)`; the cancellation path
`handleBatchCancel` instead computes `startCoins - finalCoins` with no
clamp. -/

/-- `initialCoinsMap[key]` lookup. -/
def lookupCoins (m : List (String × Rat)) (key : String) : Option Rat :=
  (m.find? (fun p => p.1 = key)).map (fun p => p.2)

/-- The aggregate consumption report built in `checkAllDone`. -/
structure ConsumptionReport where
  totalConsumed : Rat
  validCount : Nat
  perKey : List (String × Rat)
  deriving DecidableEq, Repr

/-- One iteration of the `results.forEach` accumulation of `checkAllDone`
(lines 237-247): for a key whose final balance was obtained and whose
starting balance is recorded, `consumed = Math.max(0, start - final)` is
reported and added to the total; other keys are skipped. -/
def consumeStep (initialCoinsMap : List (String × Rat))
    (acc : ConsumptionReport) (r : String × Option Rat) : ConsumptionReport :=
  match r.2, lookupCoins initialCoinsMap r.1 with
  | some finalBal, some start =>
    let consumed := max 0 (start - finalBal)
    { totalConsumed := acc.totalConsumed + consumed,
      validCount := acc.validCount + 1,
      perKey := acc.perKey ++ [(r.1, consumed)] }
  | _, _ => acc

/-- The whole consumption accumulation of `checkAllDone`. -/
def summarizeConsumption (initialCoinsMap : List (String × Rat))
    (results : List (String × Option Rat)) : ConsumptionReport :=
  results.foldl (consumeStep initialCoinsMap) ⟨0, 0, []⟩

/-- The consumption line of the cancellation path
(`handleBatchCancel`, lines 588-591): `const consumed = startCoins - finalCoins`
— no clamp to zero. -/
def cancelConsumed (startCoins finalCoins : Rat) : Rat :=
  startCoins - finalCoins

/-! ## Pending-file keys recorded by `BatchSettingsModal` (`src/unnamed/part_002`)

The modal documents its map as ``key = `${batchIndex}|${nodeId}|${fieldName}` ``
(line 7) but every write site uses the row task id:
`` `${taskId}|${nodeId}|${fieldName}` `` where `taskId` is
`` `task-${Date.now()}-${index}-${random}` `` or the fallback
`` `task-${batchIndex}` ``. -/

/-- Key construction used by `handleFileUpload` and `handleBatchImageImport`. -/
def pendingFileKey (taskId nodeId fieldName : String) : String :=
  taskId ++ "|" ++ nodeId ++ "|" ++ fieldName

/-- A generated row task id, `task-${Date.now()}-${index}-${random}`. -/
def newRowTaskId (timestamp idx : Nat) (rand : String) : String :=
  "task-" ++ toString timestamp ++ "-" ++ toString idx ++ "-" ++ rand

/-! ## Engine start dispatch and the single-task path
(`src/unnamed/part_004` lines 147-163, 428-557; `src/unnamed/part_000` lines 723-736) -/

/-- `const isBatch = !!batchList && batchList.length > 0`. -/
def isBatch (batchList : Option (List (List NodeInfo))) : Bool :=
  match batchList with
  | none => false
  | some l => decide (0 < l.length)

/-- `const totalTasks = isBatch ? batchList.length : 1`. -/
def totalTasksFor (batchList : Option (List (List NodeInfo))) : Nat :=
  match batchList with
  | some l => if 0 < l.length then l.length else 1
  | none => 1

/-- Which runner the start block invokes (lines 527-557): the batch worker
spawn when `isBatch`, otherwise `runSingleTask(nodes)`. -/
inductive EngineMode where
  | batchMode
  | singleMode
  deriving DecidableEq, Repr

/-- The start dispatch decision. -/
def engineStartMode (batchList : Option (List (List NodeInfo))) : EngineMode :=
  if isBatch batchList then .batchMode else .singleMode

/-- The immediate-node-error check of the single-task path (lines 451-466):
unlike the batch path it fails the task only on a parsed non-empty
`node_errors`; a `JSON.parse` failure is merely logged (`console.warn`)
and execution proceeds to polling. -/
def singleTipsFails (parseTips : String → Except String PromptTips)
    (promptTips : Option String) : Bool :=
  match promptTips with
  | none => false
  | some s =>
    if s = "" then false
    else
      match parseTips s with
      | .error _ => false
      | .ok tips =>
        match tips.node_errors with
        | none => false
        | some m => !m.isEmpty

/-- The single-task poll classification (lines 472-515): code 0 with
outputs succeeds, 805 fails with the reason (or `未知错误`), every other
code — 804, 813 and unknown codes alike — schedules the next poll after
5000 ms; a rejected call is logged and also schedules the next poll. -/
def singlePollGo : List PollResponse → PollCore × Nat × List Nat
  | [] => (.stillPolling, 0, [])
  | r :: rs =>
    match r with
    | .exn _ =>
      let (core, k, ds) := singlePollGo rs
      (core, k + 1, 5000 :: ds)
    | .ok o =>
      if o.code = 0 ∧ dataHasOutputs o then (.succeeded (outputsOf o), 1, [])
      else if o.code = 805 then
        (.failedPoll
          (match failedReasonOf o with
            | some reason =>
              jsOrStr reason.node_name "Node" ++ ": " ++
                jsOrStr reason.exception_message "Error"
            | none => "未知错误"), 1, [])
      else
        let (core, k, ds) := singlePollGo rs
        (core, k + 1, 5000 :: ds)

/-- Observable trace of `runSingleTask` (lines 429-525). -/
structure SingleTrace where
  submitCalls : Nat
  pollCalls : Nat
  onCompleteCalls : Nat
  onBatchCompleteCalls : Nat
  deriving DecidableEq, Repr

/-- The environment of the single-task path. -/
structure SingleEnv where
  primaryApiKey : String
  submitResult : Except String SubmitResult
  parseTips : String → Except String PromptTips
  pollResponses : List PollResponse

/-- `runSingleTask` control flow: without an API key nothing is called;
otherwise exactly one submit happens, then (unless submit threw or the
node-error check failed) the poll loop runs; `onComplete` fires only on
poll success.  `onBatchComplete` is never invoked on this path. -/
def runSingleTaskTrace (env : SingleEnv) : SingleTrace :=
  if env.primaryApiKey = "" then ⟨0, 0, 0, 0⟩
  else
    match env.submitResult with
    | .error _ => ⟨1, 0, 0, 0⟩
    | .ok sr =>
      if singleTipsFails env.parseTips sr.promptTips then ⟨1, 0, 0, 0⟩
      else
        let (core, k, _) := singlePollGo env.pollResponses
        match core with
        | .succeeded _ => ⟨1, k, 1, 0⟩
        | _ => ⟨1, k, 0, 0⟩

/-- The retry-failed-tasks action of the completion dialog
(`src/unnamed/part_000` lines 723-736): restarts the batch only when the
filtered retry list is non-empty. -/
def retryRestart (failedIndices : List Nat)
    (activeBatchList : List (List NodeInfo)) : Option (List (List NodeInfo)) :=
  let retryBatchList :=
    (failedIndices.filter (fun idx => idx < activeBatchList.length)).map
      (fun idx => activeBatchList.getD idx [])
  if 0 < retryBatchList.length then some retryBatchList else none

/-! ## The legacy `StepRunning` poll loop (`src/components/StepRunning.tsx`)

The older component in the repository keeps a client-side timeout:
`TIMEOUT_MS = 600 * 1000`; its `poll` first checks
`Date.now() - startTime > TIMEOUT_MS` and marks the task `FAILED` with
`运行超时` before making any further call; otherwise code 0 with outputs
succeeds, 805 fails, and every other code or a rejected call schedules the
next poll after 5000 ms.  Elapsed time is modelled as the accumulated
scheduled pauses (network latency only adds to it, making the timeout fire
no later). -/

/-- `const TIMEOUT_MS = 600 * 1000; // 10 minutes`. -/
def TIMEOUT_MS : Nat := 600 * 1000

/-- Result kind of the legacy poll loop. -/
inductive LegacyPollResult where
  | succeeded (outputs : List TaskOutput)
  | failedPoll (msg : String)
  | timeoutFailed
  | stillPolling
  deriving DecidableEq, Repr

/-- The legacy poll loop over observed responses, carrying elapsed time. -/
def legacyPoll : List PollResponse → Nat → LegacyPollResult
  | [], elapsed => if TIMEOUT_MS < elapsed then .timeoutFailed else .stillPolling
  | r :: rest, elapsed =>
    if TIMEOUT_MS < elapsed then .timeoutFailed
    else
      match r with
      | .exn _ => legacyPoll rest (elapsed + 5000)
      | .ok o =>
        if o.code = 0 ∧ dataHasOutputs o then .succeeded (outputsOf o)
        else if o.code = 805 then
          .failedPoll
            (match failedReasonOf o with
              | some reason =>
                jsOrStr reason.node_name "Node" ++ ": " ++
                  jsOrStr reason.exception_message "Error"
              | none => "未知错误")
        else legacyPoll rest (elapsed + 5000)

/-! ## Theorems for C3: consumption accounting -/

/-- Invariant preserved by each `consumeStep`. -/
def ConsumptionInv (acc : ConsumptionReport) : Prop :=
  0 ≤ acc.totalConsumed ∧
  (∀ p ∈ acc.perKey, 0 ≤ p.2) ∧
  (acc.perKey.map (fun p => p.2)).sum = acc.totalConsumed ∧
  acc.validCount = acc.perKey.length

theorem consumeStep_preserves (init : List (String × Rat))
    (acc : ConsumptionReport) (r : String × Option Rat)
    (h : ConsumptionInv acc) : ConsumptionInv (consumeStep init acc r) := by
  obtain ⟨h0, h1, h2, h3⟩ := h
  unfold consumeStep
  cases hr : r.2 with
  | none => exact ⟨h0, h1, h2, h3⟩
  | some finalBal =>
    cases hl : lookupCoins init r.1 with
    | none => exact ⟨h0, h1, h2, h3⟩
    | some start =>
      refine ⟨?_, ?_, ?_, ?_⟩
      · have : (0 : Rat) ≤ max 0 (start - finalBal) := le_max_left 0 _
        simp only []
        positivity
      · intro p hp
        simp only [List.mem_append, List.mem_singleton] at hp
        rcases hp with hp | hp
        · exact h1 p hp
        · subst hp; exact le_max_left 0 _
      · simp [List.map_append, List.sum_append, h2]
      · simp [h3]

theorem summarize_foldl_inv (init : List (String × Rat)) :
    ∀ (results : List (String × Option Rat)) (acc : ConsumptionReport),
      ConsumptionInv acc →
      ConsumptionInv (results.foldl (consumeStep init) acc) := by
  intro results
  induction results with
  | nil => intro acc h; exact h
  | cons r rest ih =>
    intro acc h
    exact ih _ (consumeStep_preserves init acc r h)

/-- C3 (amended): on the completion path (`checkAllDone`), for every
credential whose starting and ending balances were both obtained, the
reported consumption is `max 0 (start - final)` by construction, hence
never negative — also after an external recharge (`final > start`) — the
total is the sum of the per-credential reports and is never negative, and
the valid-count matches the number of reports.  The cancellation path
(`handleBatchCancel`) does not clamp and can report a negative consumption
(see the counterexample). -/
theorem consumption_reported_nonneg (init : List (String × Rat))
    (results : List (String × Option Rat)) :
    0 ≤ (summarizeConsumption init results).totalConsumed ∧
    (∀ p ∈ (summarizeConsumption init results).perKey, 0 ≤ p.2) ∧
    ((summarizeConsumption init results).perKey.map (fun p => p.2)).sum =
      (summarizeConsumption init results).totalConsumed ∧
    (summarizeConsumption init results).validCount =
      (summarizeConsumption init results).perKey.length := by
  have h := summarize_foldl_inv init results ⟨0, 0, []⟩
    ⟨le_refl 0, by intro p hp; simp at hp, by simp, by simp⟩
  exact h

/-- Witness: concrete instance of the amended C3. -/
theorem consumption_reported_nonneg_witness :
    0 ≤ (summarizeConsumption [("k1", 10)] [("k1", some 4)]).totalConsumed :=
  (consumption_reported_nonneg [("k1", 10)] [("k1", some 4)]).1

/-- C3 counterexample: the cancellation path computes
`startCoins - finalCoins` without the `Math.max(0, ...)` clamp, so a
credential recharged mid-run (start 10, end 15) is reported with a
negative consumption, contradicting the claim for cancelled runs. -/
theorem cancel_consumption_negative_counterexample :
    cancelConsumed 10 15 = -5 ∧ cancelConsumed 10 15 < 0 ∧
    cancelConsumed 10 15 ≠ max 0 (10 - 15) := by
  refine ⟨by norm_num [cancelConsumed], by norm_num [cancelConsumed], ?_⟩
  norm_num [cancelConsumed]

/-! ## Theorems for the batch poll loop (C6, C7, C10) -/

/-- Response codes the loop treats as still running or queued. -/
def isStillRunningResp : PollResponse → Bool
  | .ok o => decide (o.code = 804) || decide (o.code = 813)
  | .exn _ => false

theorem classifyOk_wait (o : PollOk) (h : o.code = 804 ∨ o.code = 813) :
    classifyOk o = .wait := by
  rcases h with h | h <;> simp [classifyOk, h]

theorem pollLoopGo_cons_continue (r : PollResponse) (rs : List PollResponse)
    (h : continuesPolling r = true) :
    pollLoopGo (r :: rs) =
      ((pollLoopGo rs).1, (pollLoopGo rs).2.1 + 1,
        pollRetryDelayMs :: (pollLoopGo rs).2.2) := by
  rcases hgo : pollLoopGo rs with ⟨core, k, ds⟩
  cases r with
  | exn m =>
    have hr : rethrows m = false := by
      simpa [continuesPolling] using h
    simp [pollLoopGo, hr, hgo]
  | ok o =>
    cases hc : classifyOk o with
    | success outs =>
      rw [continuesPolling, hc] at h
      simp at h
    | wait => simp [pollLoopGo, hc, hgo]
    | thrown m =>
      rw [continuesPolling, hc] at h
      simp only [Bool.not_eq_true'] at h
      simp [pollLoopGo, hc, h, hgo]

theorem pollLoopGo_all_still (rs : List PollResponse)
    (h : ∀ r ∈ rs, isStillRunningResp r = true) :
    pollLoopGo rs =
      (.stillPolling, rs.length, List.replicate rs.length pollRetryDelayMs) := by
  induction rs with
  | nil => rfl
  | cons r rest ih =>
    have hr : isStillRunningResp r = true := h r (by simp)
    have hcont : continuesPolling r = true := by
      cases r with
      | exn m => simp [isStillRunningResp] at hr
      | ok o =>
        have hcode : o.code = 804 ∨ o.code = 813 := by
          simpa [isStillRunningResp] using hr
        simp [continuesPolling, classifyOk_wait o hcode]
    rw [pollLoopGo_cons_continue r rest hcont,
      ih (fun x hx => h x (by simp [hx]))]
    simp [List.replicate_succ]

theorem pollLoopGo_failed_source (rs : List PollResponse) :
    ∀ (m : String), (pollLoopGo rs).1 = .failedPoll m →
      ∃ r ∈ rs, continuesPolling r = false := by
  induction rs with
  | nil => intro m h; simp [pollLoopGo] at h
  | cons r rest ih =>
    intro m h
    by_cases hc : continuesPolling r = true
    · rw [pollLoopGo_cons_continue r rest hc] at h
      obtain ⟨x, hx, hxc⟩ := ih m h
      exact ⟨x, by simp [hx], hxc⟩
    · exact ⟨r, by simp, by simpa using hc⟩

/-- C6 (amended): the batch poll loop has no client-side timeout: any number
of consecutive still-running or queued responses (codes 804 and 813) leaves
the loop still polling, with one `queryTaskOutputs` call and one fixed
3000 ms pause per response and no terminal classification; and the loop
classifies a job as failed only because some response was classified
terminal by the remote status — never because of elapsed time or a count of
polls (the loop state carries neither).  The legacy `StepRunning` component
retains `TIMEOUT_MS` and does fail by timeout — see the counterexample. -/
theorem batch_poll_no_timeout :
    (∀ (rs : List PollResponse), (∀ r ∈ rs, isStillRunningResp r = true) →
      pollLoopGo rs =
        (.stillPolling, rs.length, List.replicate rs.length pollRetryDelayMs)) ∧
    (∀ (rs : List PollResponse) (m : String),
      (pollLoopGo rs).1 = .failedPoll m →
      ∃ r ∈ rs, continuesPolling r = false) :=
  ⟨pollLoopGo_all_still, pollLoopGo_failed_source⟩

/-- A still-running (code 804) response with no payload. -/
def stillRunning804 : PollResponse :=
  .ok { code := 804, msg := none, data := .absent }

/-- Witness: three consecutive still-running responses leave the batch loop
polling after three calls and three 3000 ms pauses. -/
theorem batch_poll_no_timeout_witness :
    pollLoopGo [stillRunning804, stillRunning804, stillRunning804] =
      (.stillPolling, 3, List.replicate 3 pollRetryDelayMs) :=
  batch_poll_no_timeout.1 [stillRunning804, stillRunning804, stillRunning804]
    (by decide)

set_option maxRecDepth 4000 in
/-- C6 counterexample: the repository also contains the legacy `StepRunning`
component (`src/components/StepRunning.tsx`) whose `poll` checks
`Date.now() - startTime > TIMEOUT_MS` (`TIMEOUT_MS = 600 * 1000`) before
every call and marks the task `FAILED`(`运行超时`).  121 consecutive
still-running responses, 5000 ms apart, push elapsed time to 605000 ms and
the job is classified as failed by timeout — contradicting the claim that
no number of consecutive still-running responses ever causes that. -/
theorem legacy_poll_timeout_counterexample :
    (∀ r ∈ List.replicate 121 stillRunning804, isStillRunningResp r = true) ∧
    legacyPoll (List.replicate 121 stillRunning804) 0 =
      LegacyPollResult.timeoutFailed := by
  constructor
  · decide
  · decide

/-! ## Theorems for C7: transient poll errors -/

theorem runWorkerTask_outcome_congr (pf : List (String × FileRef))
    (uf : FileRef → Except String String) (sub : Except String SubmitResult)
    (pt : String → Except String PromptTips)
    (st : List (String × NodeErrorVal) → String)
    (pr rs : List PollResponse) (i : Nat) (nodes : List NodeInfo)
    (h : (pollLoopGo pr).1 = (pollLoopGo rs).1) :
    (runWorkerTask ⟨pf, uf, sub, pt, st, pr⟩ i nodes).outcome =
      (runWorkerTask ⟨pf, uf, sub, pt, st, rs⟩ i nodes).outcome := by
  unfold runWorkerTask
  cases hu : uploadLoop uf (filesToUploadFor i pf) nodes [] with
  | error e => simp
  | ok v =>
    cases hs : sub with
    | error m => simp
    | ok sr =>
      cases ht : submitTipsCheck st pt sr.promptTips with
      | some m => simp [ht]
      | none =>
        rcases hp : pollLoopGo pr with ⟨core1, k1, ds1⟩
        rcases hq : pollLoopGo rs with ⟨core2, k2, ds2⟩
        have hcc : core1 = core2 := by
          rw [hp, hq] at h; exact h
        subst hcc
        simp [ht, hp, hq]

/-- C7: a transient network failure of one `queryTaskOutputs` call — a
rejection whose message contains the substring `fetch`, which is how the
inner `catch` recognises network errors — is not terminal: the loop makes
the call, logs, pauses the same fixed 3000 ms used after still-running
codes, and retries, so the remaining run is exactly the run without that
response; in particular the final job outcome, and therefore the
completed/failed counters, are unchanged by the transient error. -/
theorem transient_poll_error_retries (m : String)
    (hfetch : strIncludes m "fetch" = true) :
    (∀ (rs : List PollResponse),
      pollLoopGo (PollResponse.exn m :: rs) =
        ((pollLoopGo rs).1, (pollLoopGo rs).2.1 + 1,
          pollRetryDelayMs :: (pollLoopGo rs).2.2)) ∧
    (∀ (pf : List (String × FileRef)) (uf : FileRef → Except String String)
        (sub : Except String SubmitResult)
        (pt : String → Except String PromptTips)
        (st : List (String × NodeErrorVal) → String)
        (rs : List PollResponse) (i : Nat) (nodes : List NodeInfo)
        (c : BatchRunState),
      (runWorkerTask ⟨pf, uf, sub, pt, st, PollResponse.exn m :: rs⟩ i nodes).outcome
        = (runWorkerTask ⟨pf, uf, sub, pt, st, rs⟩ i nodes).outcome ∧
      applyOutcome c
          (runWorkerTask ⟨pf, uf, sub, pt, st, PollResponse.exn m :: rs⟩ i nodes).outcome
        = applyOutcome c
            (runWorkerTask ⟨pf, uf, sub, pt, st, rs⟩ i nodes).outcome) := by
  have hcont : continuesPolling (PollResponse.exn m) = true := by
    simp [continuesPolling, rethrows, hfetch]
  constructor
  · intro rs
    exact pollLoopGo_cons_continue (PollResponse.exn m) rs hcont
  · intro pf uf sub pt st rs i nodes c
    have hcore : (pollLoopGo (PollResponse.exn m :: rs)).1 = (pollLoopGo rs).1 := by
      rw [pollLoopGo_cons_continue (PollResponse.exn m) rs hcont]
    have houtcome := runWorkerTask_outcome_congr pf uf sub pt st
      (PollResponse.exn m :: rs) rs i nodes hcore
    exact ⟨houtcome, by rw [houtcome]⟩

/-- Witness: a concrete transient rejection (`Failed to fetch`) in front of
a success response leaves the outcome identical to the run without it. -/
theorem transient_poll_error_retries_witness :
    pollLoopGo [PollResponse.exn "Failed to fetch"] =
      ((pollLoopGo []).1, (pollLoopGo []).2.1 + 1,
        pollRetryDelayMs :: (pollLoopGo []).2.2) :=
  (transient_poll_error_retries "Failed to fetch" (by decide)).1 []

/-! ## Theorems for C10: code 0 with an empty or missing output list -/

theorem jsOrStr_ne_empty (a : Option String) (b : String) (hb : b ≠ "") :
    jsOrStr a b ≠ "" := by
  cases a with
  | none => exact hb
  | some s =>
    by_cases hs : s = ""
    · simpa [jsOrStr, hs] using hb
    · simpa [jsOrStr, hs] using hs

/-- C10 (amended): a poll response with code 0 but an empty or missing
output list falls through every recognised branch and is thrown with
`res.msg`, falling back to the generic `任务失败 (code: 0)` — and the inner
`catch` re-throws it, failing the job terminally after that single call —
provided the resulting message does not contain the substring `fetch`;
a message containing `fetch` is instead treated as a transient network
error and the poll is retried (see the counterexample). -/
theorem code0_empty_outputs_fails (r : PollOk) (rs : List PollResponse)
    (hcode : r.code = 0)
    (hdata : r.data = PollDataVal.outputs [] ∨ r.data = PollDataVal.absent)
    (hmsg : strIncludes (jsOrStr r.msg "任务失败 (code: 0)") "fetch" = false) :
    pollLoopGo (PollResponse.ok r :: rs) =
      (PollCore.failedPoll (jsOrStr r.msg "任务失败 (code: 0)"), 1, []) := by
  have hdho : dataHasOutputs r = false := by
    rcases hdata with h | h <;> simp [dataHasOutputs, h]
  have hfr : failedReasonOf r = none := by
    rcases hdata with h | h <;> simp [failedReasonOf, h]
  have hgen : "任务失败 (code: " ++ toString (0 : Int) ++ ")" = "任务失败 (code: 0)" := by
    decide
  have hclass : classifyOk r = .thrown (jsOrStr r.msg "任务失败 (code: 0)") := by
    rw [classifyOk, hcode, hdho, hfr]
    simp [hgen]
  have hne : jsOrStr r.msg "任务失败 (code: 0)" ≠ "" :=
    jsOrStr_ne_empty r.msg _ (by decide)
  have hre : rethrows (jsOrStr r.msg "任务失败 (code: 0)") = true := by
    simp [rethrows, hne, hmsg]
  simp [pollLoopGo, hclass, hre]

/-- A code-0 response with an empty output list and an ordinary remote
message. -/
def code0EmptyResp : PollOk :=
  { code := 0, msg := some "内容审核未通过", data := .outputs [] }

/-- Witness: the concrete empty-output code-0 response fails the job with
the response message after exactly one poll call. -/
theorem code0_empty_outputs_fails_witness :
    pollLoopGo [PollResponse.ok code0EmptyResp] =
      (PollCore.failedPoll (jsOrStr code0EmptyResp.msg "任务失败 (code: 0)"), 1, []) :=
  code0_empty_outputs_fails code0EmptyResp [] rfl (Or.inl rfl) (by decide)

/-- A code-0 response with an empty output list whose message happens to
contain the substring `fetch`. -/
def code0FetchResp : PollOk :=
  { code := 0, msg := some "Failed to fetch", data := .outputs [] }

/-- C10 counterexample: for a code-0 response with an empty output list
whose `msg` contains the substring `fetch`, the thrown message trips the
transient-network test of the inner `catch`, so the loop retries instead of
classifying the job as a terminal failure — contradicting the claim as
universally stated. -/
theorem code0_fetch_msg_retries_counterexample :
    dataHasOutputs code0FetchResp = false ∧
    pollLoopGo [PollResponse.ok code0FetchResp] =
      (PollCore.stillPolling, 1, [pollRetryDelayMs]) := by
  constructor
  · decide
  · decide

/-! ## Theorems for C4 and C9: failures at the submit stage -/

theorem runWorkerTask_tips_fail (env : JobEnv) (i : Nat) (nodes : List NodeInfo)
    (sr : SubmitResult) (ns : List NodeInfo) (us : List String) (m : String)
    (hu : uploadLoop env.uploadFile (filesToUploadFor i env.pendingFiles) nodes []
        = .ok (ns, us))
    (hsub : env.submitResult = .ok sr)
    (ht : submitTipsCheck env.stringify env.parseTips sr.promptTips = some m) :
    (runWorkerTask env i nodes).outcome = .failedJob m ∧
    (runWorkerTask env i nodes).pollCalls = 0 := by
  unfold runWorkerTask
  rw [hu, hsub]
  simp [ht]

/-- C9: when the batch submit succeeds but its non-empty `promptTips`
payload is not valid JSON, `JSON.parse` throws; the guard
`if (e.message !== 'Unexpected') throw e` re-throws every such error
(real `JSON.parse` messages like `Unexpected token ...` are never the bare
string `Unexpected`), so the parse error propagates as the terminal failure
of the job and `queryTaskOutputs` is never called. -/
theorem invalid_prompt_tips_fails_job (env : JobEnv) (i : Nat)
    (nodes : List NodeInfo) (sr : SubmitResult) (s m : String)
    (ns : List NodeInfo) (us : List String)
    (hu : uploadLoop env.uploadFile (filesToUploadFor i env.pendingFiles) nodes []
        = .ok (ns, us))
    (hsub : env.submitResult = .ok sr)
    (htips : sr.promptTips = some s) (hs : s ≠ "")
    (hparse : env.parseTips s = .error m) (hm : m ≠ "Unexpected") :
    (runWorkerTask env i nodes).outcome = .failedJob m ∧
    (runWorkerTask env i nodes).pollCalls = 0 := by
  have ht : submitTipsCheck env.stringify env.parseTips sr.promptTips = some m := by
    simp [submitTipsCheck, htips, hs, hparse, hm]
  exact runWorkerTask_tips_fail env i nodes sr ns us m hu hsub ht

/-- Environment for the C9 witness: submit succeeds with a non-JSON
`promptTips`; the parse oracle throws a realistic `JSON.parse` message. -/
def c9Env : JobEnv :=
  { pendingFiles := []
    uploadFile := fun _ => .ok "remote.png"
    submitResult := .ok { taskId := "tid-9", promptTips := some "not json" }
    parseTips := fun _ => .error "Unexpected token o in JSON at position 1"
    stringify := fun _ => ""
    pollResponses := [stillRunning804] }

/-- Witness: the concrete C9 scenario fails the job with the parse message
and performs zero poll calls. -/
theorem invalid_prompt_tips_fails_job_witness :
    (runWorkerTask c9Env 0 []).outcome =
      .failedJob "Unexpected token o in JSON at position 1" ∧
    (runWorkerTask c9Env 0 []).pollCalls = 0 :=
  invalid_prompt_tips_fails_job c9Env 0 []
    { taskId := "tid-9", promptTips := some "not json" }
    "not json" "Unexpected token o in JSON at position 1" [] []
    rfl rfl rfl (by decide) rfl (by decide)

/-- C4: a successful submit whose `promptTips` parses to a non-empty
`node_errors` whose (single) actionable entry has a detail containing
`API balance is insufficient` is classified by `parseNodeErrors` as
`第三方 API 余额不足`; the thrown classification skips the poll loop
entirely, so the job transitions directly to failed with that message and
`queryTaskOutputs` is never called for it. -/
theorem inline_balance_error_fails_before_poll (env : JobEnv) (i : Nat)
    (nodes : List NodeInfo) (sr : SubmitResult) (s nid : String)
    (ne : NodeError) (e : ErrEntry) (ns : List NodeInfo) (us : List String)
    (hu : uploadLoop env.uploadFile (filesToUploadFor i env.pendingFiles) nodes []
        = .ok (ns, us))
    (hsub : env.submitResult = .ok sr)
    (htips : sr.promptTips = some s) (hs : s ≠ "")
    (hparse : env.parseTips s =
      .ok { node_errors := some [(nid, NodeErrorVal.objVal ne)] })
    (herr : effErrors ne = [e])
    (hbal : strIncludes (errDetails e) "API balance is insufficient" = true) :
    (runWorkerTask env i nodes).outcome = .failedJob "第三方 API 余额不足" ∧
    (runWorkerTask env i nodes).pollCalls = 0 := by
  have hbhit : balanceHit (errDetails e) = true := by
    unfold balanceHit
    rw [hbal]
    rfl
  have hcE : classifyErrEntry nid ne e =
      some ("第三方 API 余额不足",
        "当前工作流 / AI 应用涉及第三方 API 调用，采用按次计费模式。\n由于您的钱包余额不足，请先前往 RunningHub 官网完成充值后再继续使用。\n\n涉及节点: "
          ++ jsOr3 (jsOrStr ne.node_name "") (jsOrStr ne.class_type "") nid) := by
    unfold classifyErrEntry
    simp only [hbhit, if_true]
  have hfirst : firstHitIn nid ne (effErrors ne) =
      some ("第三方 API 余额不足",
        "当前工作流 / AI 应用涉及第三方 API 调用，采用按次计费模式。\n由于您的钱包余额不足，请先前往 RunningHub 官网完成充值后再继续使用。\n\n涉及节点: "
          ++ jsOr3 (jsOrStr ne.node_name "") (jsOrStr ne.class_type "") nid) := by
    rw [herr]
    unfold firstHitIn
    rw [hcE]
  have ht : submitTipsCheck env.stringify env.parseTips sr.promptTips =
      some "第三方 API 余额不足" := by
    simp [submitTipsCheck, htips, hs, hparse, parseNodeErrors, firstHit, hfirst]
  exact runWorkerTask_tips_fail env i nodes sr ns us _ hu hsub ht

/-- The inline validation error of the C4 witness scenario. -/
def c4ErrEntry : ErrEntry :=
  { details := some "API balance is insufficient, please recharge"
    message := none
    errType := none }

/-- The node error object of the C4 witness scenario. -/
def c4NodeError : NodeError :=
  { errors := some [c4ErrEntry]
    class_type := some "RH_APICall"
    node_name := some "API调用节点"
    selfEntry := c4ErrEntry }

/-- Environment for the C4 witness: submit succeeds but carries the inline
balance error; a poll response is available but must never be consumed. -/
def c4Env : JobEnv :=
  { pendingFiles := []
    uploadFile := fun _ => .ok "remote.png"
    submitResult := .ok { taskId := "tid-4", promptTips := some "json-payload" }
    parseTips := fun _ =>
      .ok { node_errors := some [("12", NodeErrorVal.objVal c4NodeError)] }
    stringify := fun _ => ""
    pollResponses := [stillRunning804] }

/-- Witness: the concrete C4 scenario fails with `第三方 API 余额不足` and
zero poll calls. -/
theorem inline_balance_error_fails_before_poll_witness :
    (runWorkerTask c4Env 0 []).outcome = .failedJob "第三方 API 余额不足" ∧
    (runWorkerTask c4Env 0 []).pollCalls = 0 :=
  inline_balance_error_fails_before_poll c4Env 0 []
    { taskId := "tid-4", promptTips := some "json-payload" }
    "json-payload" "12" c4NodeError c4ErrEntry [] []
    rfl rfl rfl (by decide) rfl rfl (by decide)

/-! ## Theorem for C5: pending-file keys never match the worker filter

`BatchSettingsModal` documents its pending-file map as
``key = `${batchIndex}|${nodeId}|${fieldName}` `` (`src/unnamed/part_002`
line 7) — the format the worker decodes — but every write site keys by the
row task id (`handleFileUpload` line 247, `handleBatchImageImport` lines
378, 398), which always starts with the letters `task-`.  The worker filter
`parseInt(batchIdx) === taskIndex` then compares `NaN` with the task index,
which is false for every index, so no recorded pending file is ever
uploaded and the job is submitted with the local file name still in its
field value. -/
theorem pending_file_key_never_matches :
    jsParseIntNat "task-1700000000000-0-abc123xyz" = none ∧
    filesToUploadFor 0
      [(pendingFileKey (newRowTaskId 1700000000000 0 "abc123xyz") "5" "image",
        { name := "cat.png" })] = [] ∧
    (runWorkerTask
      { pendingFiles :=
          [(pendingFileKey (newRowTaskId 1700000000000 0 "abc123xyz") "5" "image",
            { name := "cat.png" })]
        uploadFile := fun _ => .ok "remote_cat.png"
        submitResult := .ok { taskId := "tid-5", promptTips := none }
        parseTips := fun _ => .error ""
        stringify := fun _ => ""
        pollResponses := [] } 0
      [{ nodeId := "5", nodeName := "LoadImage", fieldName := "image",
         fieldValue := "cat.png", fieldType := "IMAGE" }]).uploadedFiles = [] ∧
    (runWorkerTask
      { pendingFiles :=
          [(pendingFileKey (newRowTaskId 1700000000000 0 "abc123xyz") "5" "image",
            { name := "cat.png" })]
        uploadFile := fun _ => .ok "remote_cat.png"
        submitResult := .ok { taskId := "tid-5", promptTips := none }
        parseTips := fun _ => .error ""
        stringify := fun _ => ""
        pollResponses := [] } 0
      [{ nodeId := "5", nodeName := "LoadImage", fieldName := "image",
         fieldValue := "cat.png", fieldType := "IMAGE" }]).nodesSubmitted =
      some [{ nodeId := "5", nodeName := "LoadImage", fieldName := "image",
              fieldValue := "cat.png", fieldType := "IMAGE" }] := by
  refine ⟨by decide, by decide, by decide, by decide⟩

/-! ## Theorems for C8: starting the engine with an empty job list -/

theorem runSingleTaskTrace_calls (env : SingleEnv)
    (h : env.primaryApiKey ≠ "") :
    (runSingleTaskTrace env).submitCalls = 1 ∧
    (runSingleTaskTrace env).onBatchCompleteCalls = 0 := by
  unfold runSingleTaskTrace
  rw [if_neg h]
  cases hs : env.submitResult with
  | error m => exact ⟨rfl, rfl⟩
  | ok sr =>
    by_cases ht : singleTipsFails env.parseTips sr.promptTips
    · simp [ht]
    · simp only [ht, if_false, Bool.false_eq_true]
      rcases hp : singlePollGo env.pollResponses with ⟨core, k, ds⟩
      cases core <;> simp [hp]

/-- C8 (amended): an empty job list does not take the batch path and no
empty-batch summary is emitted: `isBatch` is false for an empty
`batchList`, so the start block dispatches to `runSingleTask(nodes)` —
which performs one submit of the form nodes whenever an API key is
configured and never invokes `onBatchComplete` — rather than performing a
no-op.  The completion dialog, for its part, restarts a retry batch only
when the filtered failed subset is non-empty. -/
theorem empty_batch_runs_single_path (env : SingleEnv)
    (h : env.primaryApiKey ≠ "") :
    isBatch (some []) = false ∧
    engineStartMode (some []) = .singleMode ∧
    totalTasksFor (some []) = 1 ∧
    (runSingleTaskTrace env).submitCalls = 1 ∧
    (runSingleTaskTrace env).onBatchCompleteCalls = 0 ∧
    (∀ l, retryRestart [] l = none) := by
  refine ⟨rfl, rfl, rfl, (runSingleTaskTrace_calls env h).1,
    (runSingleTaskTrace_calls env h).2, ?_⟩
  intro l
  rfl

/-- Environment for the C8 witness and counterexample: a configured API key
and a submit that succeeds. -/
def c8Env : SingleEnv :=
  { primaryApiKey := "key-1"
    submitResult := .ok { taskId := "tid-8", promptTips := none }
    parseTips := fun _ => .error ""
    pollResponses := [] }

/-- Witness: concrete instance of the amended C8. -/
theorem empty_batch_runs_single_path_witness :
    (runSingleTaskTrace c8Env).submitCalls = 1 :=
  (empty_batch_runs_single_path c8Env (by decide)).2.2.2.1

/-- C8 counterexample: with an empty `batchList` the engine is not a no-op
and emits no empty-batch summary — `isBatch` is false, the single-task path
runs, `submitTask` is called once for the form nodes, and
`onBatchComplete` is never invoked, contradicting the claim that an empty
job list immediately emits an empty-batch summary with no submit calls. -/
theorem empty_batch_not_noop_counterexample :
    isBatch (some []) = false ∧
    engineStartMode (some []) = EngineMode.singleMode ∧
    (runSingleTaskTrace c8Env).submitCalls = 1 ∧
    (runSingleTaskTrace c8Env).onBatchCompleteCalls = 0 := by
  refine ⟨rfl, rfl, ?_, ?_⟩ <;> decide
